import Mathlib

/-!
Shallow embedding of `ahd_uploader.py` (CLI uploader for a tracker site):
classification heuristics, artifact generation (torrent cache, screenshots),
gallery publishing, upload-form assembly and result-link resolution.
Pure string/list/number computations are translated directly; stateful parts
(the scratch filesystem used by torrent creation) become explicit state
passing; external processes and HTTP calls become parameters or `Option`
results; Python exceptions become `Except`/`Option`.
-/

namespace AhdUploader

/-- Predicate `listPre p l`: true when the character list `p` is an initial segment
of `l` (models Python `str.startswith` at one position). -/
def listPre : List Char → List Char → Bool
  | [], _ => true
  | _ :: _, [] => false
  | a :: as, b :: bs => a = b && listPre as bs

/-- Predicate `listSub p l`: true when `p` occurs contiguously somewhere in `l`. -/
def listSub (p : List Char) : List Char → Bool
  | [] => p.isEmpty
  | c :: t => listPre p (c :: t) || listSub p t

/-- Function `strContains s sub` models the Python expression `sub in s` on strings:
`sub` occurs as a contiguous substring of `s`. -/
def strContains (s sub : String) : Bool :=
  listSub sub.data s.data

/-- Constant `KNOWN_EDITIONS` from the source: editions whose name goes verbatim into
the edition-title field. -/
def KNOWN_EDITIONS : List String :=
  ["Director\x27s Cut", "Unrated", "Extended Edition", "2 in 1", "The Criterion Collection"]

/-- Constant `TYPES` from the source: permitted content types. -/
def TYPES : List String := ["Movies", "TV-Shows"]

/-- Constant `MEDIA_TYPES` from the source: permitted media source types, in the order
the detection loop scans them. -/
def MEDIA_TYPES : List String :=
  ["Blu-ray", "HD-DVD", "HDTV", "WEB-DL", "WEBRip", "DTheater", "XDCAM", "UHD Blu-ray"]

/-- Constant `CODECS` from the source: permitted codecs, in the order the detection
loop scans them. -/
def CODECS : List String :=
  ["x264", "VC-1 Remux", "h.264 Remux", "MPEG2 Remux", "h.265 Remux", "x265"]

/-- Function `autodetect_media_type` from the source, over the final name
component: the `UHD.BluRay` check comes first, then the plain `BluRay`
check, then the scan of `MEDIA_TYPES`; no match raises (here `.error`). -/
def autodetect_media_type (name : String) : Except String String :=
  if strContains name ("UHD.BluRay") then .ok ("UHD Blu-ray")
  else if strContains name ("BluRay") then .ok ("Blu-ray")
  else
    match MEDIA_TYPES.find? (fun m => strContains name m) with
    | some m => .ok m
    | none => .error ("Unable to detect media type")

/-- Function `autodetect_codec` from the source: an `AVC`+`Remux` name is
`h.264 Remux`; otherwise the first member of `CODECS` occurring in the name;
otherwise the empty string (no exception). -/
def autodetect_codec (name : String) : String :=
  if strContains name ("AVC") && strContains name ("Remux") then ("h.264 Remux")
  else
    match CODECS.find? (fun c => strContains name c) with
    | some c => c
    | none => ""

/-- The two consecutive `if` statements of `preprocessing` that rewrite an
auto-detected codec when the media type is WEB-DL. They are not exclusive:
the second test reads the value written by the first. -/
def webdl_normalize (name : String) (c0 : String) : String :=
  let c1 := if c0 = "x264" || strContains name ("H.264") then ("h.264 Remux") else c0
  if c1 = "x265" || strContains name ("H.265") || strContains name ("HEVC") then ("h.265 Remux") else c1

/-- The codec auto-detection path of `preprocessing`: detect from the name,
then apply the WEB-DL normalization when the media type is WEB-DL. -/
def preprocessing_codec (name : String) (mediaType : String) : String :=
  let c0 := autodetect_codec name
  if mediaType = "WEB-DL" then webdl_normalize name c0 else c0

/-- The `assert arguments[--codec] in CODECS` validation at the end of
`preprocessing`. -/
def codec_assert_ok (c : String) : Bool :=
  CODECS.contains c

/-- The idealized screenshot offsets: the float expression
`[int(1 / (num_screens + 1) * o * duration) for o in range(1, num_screens + 1)]`
of `take_screenshots` evaluated in exact rational arithmetic, which is the
floor division `duration * o / (num_screens + 1)` over `Nat` since
`duration` is `float(int(get_duration(file)))`, an integer number of
seconds. Binary64 evaluation can diverge from this idealization; the
faithful model is `fpScreenshotOffsets` below, and this idealization is
used only at inputs where the two provably agree (duration 3600). -/
def screenshot_offsets (duration : Nat) (num_screens : Nat) : List Nat :=
  (List.range num_screens).map (fun o => duration * (o + 1) / (num_screens + 1))

/-- Fuel-based floor of the base-2 logarithm; structural recursion on the
fuel keeps kernel reduction cheap (the recursion depth is the bit length,
the fuel only bounds it). -/
def log2Fuel : Nat → Nat → Nat
  | 0, _ => 0
  | fuel + 1, n => if 2 ≤ n then log2Fuel fuel (n / 2) + 1 else 0

/-- Number of binary digits of `n` (0 for 0). -/
def bitlen (n : Nat) : Nat :=
  if n = 0 then 0 else log2Fuel n n + 1

/-- Rounds a positive integer significand to 53 bits with the IEEE
round-to-nearest, ties-to-even rule; `sticky` records a discarded nonzero
tail below the integer. Returns the rounded significand and the number of
bits dropped (one more when the carry overflows to `2 ^ 53`). -/
def roundMantissa (n : Nat) (sticky : Bool) : Nat × Nat :=
  let bl := bitlen n
  if bl ≤ 53 then (n, 0)
  else
    let sh := bl - 53
    let q := n / 2 ^ sh
    let rem := n % 2 ^ sh
    let half := 2 ^ (sh - 1)
    let up : Bool := if half < rem then true else if rem < half then false
                     else if sticky then true else q % 2 = 1
    let m := if up then q + 1 else q
    if m = 2 ^ 53 then (2 ^ 52, sh + 1) else (m, sh)

/-- A nonnegative binary64 value in the normal range: the real number
`m * 2 ^ e`, with `m` either 0 or a 53-bit significand in
`[2 ^ 52, 2 ^ 53)`. Overflow and subnormals never arise at the magnitudes
this embedding evaluates. -/
structure B64 where
  m : Nat
  e : Int
  deriving DecidableEq

/-- Correctly rounded binary64 division `1.0 / b` (the Python expression
`1 / (num_screens + 1)` on exact integer operands): compute
`2 ^ t / b` with 60 guard bits and round to 53 bits with a sticky bit for
the remainder. -/
def b64Div1 (b : Nat) : B64 :=
  let t := bitlen b + 60
  let n := 2 ^ t / b
  let r := 2 ^ t % b
  let p := roundMantissa n (r ≠ 0)
  ⟨p.1, (p.2 : Int) - (t : Int)⟩

/-- Correctly rounded binary64 product of a binary64 value and an exact
nonnegative integer (Python float-times-int; the integer converts exactly
below `2 ^ 53`). -/
def b64MulNat (x : B64) (k : Nat) : B64 :=
  if x.m = 0 ∨ k = 0 then ⟨0, 0⟩
  else
    let p := roundMantissa (x.m * k) false
    ⟨p.1, x.e + (p.2 : Int)⟩

/-- Python `int()` on a nonnegative binary64 value: truncation toward
zero, which is the floor here. -/
def b64TruncNat (x : B64) : Nat :=
  if 0 ≤ x.e then x.m * 2 ^ x.e.toNat else x.m / 2 ^ (-x.e).toNat

/-- The binary64 evaluation of the source expression
`int(1 / (num_screens + 1) * o * duration)` of `take_screenshots`,
operation by operation with IEEE round-to-nearest-even semantics. -/
def fpOffset (duration num_screens o : Nat) : Nat :=
  b64TruncNat (b64MulNat (b64MulNat (b64Div1 (num_screens + 1)) o) duration)

/-- The screenshot offsets of `take_screenshots` under faithful binary64
arithmetic: `fpOffset` at `o = 1 .. num_screens`. -/
def fpScreenshotOffsets (duration num_screens : Nat) : List Nat :=
  (List.range num_screens).map (fun o => fpOffset duration num_screens (o + 1))

/-- The screenshot file name chosen by `take_screenshot`:
`"stem_offset.png"` built from the stem of the source file and the offset. -/
def screenshotName (stem : String) (offset : Nat) : String :=
  stem ++ "_" ++ toString offset ++ ".png"

/-- Predicate `allDigits l`: true when `l` is a nonempty list of decimal digits. -/
def allDigits : List Char → Bool
  | [] => false
  | [c] => c.isDigit
  | c :: t => c.isDigit && allDigits t

/-- Value of a list of decimal digits, most significant first. -/
def digitsVal (l : List Char) : Nat :=
  l.foldl (fun acc c => acc * 10 + (c.toNat - 48)) 0

/-- Models Python `int(s)` on canonical decimal literals with an optional
sign: `none` when the string does not parse (Python raises `ValueError`).
Whitespace and underscore forms accepted by Python are out of scope. -/
def pyInt (s : String) : Option Int :=
  match s.data with
  | '-' :: rest => if allDigits rest then some (-(digitsVal rest : Int)) else none
  | '+' :: rest => if allDigits rest then some (digitsVal rest : Int) else none
  | l => if allDigits l then some (digitsVal l : Int) else none

/-- The screenshot-count coercion at the end of `preprocessing`:
`assert int(arguments[--num-screens])` followed by the assignment
`arguments[--num-screens] = int(...)`. `int()` raising is `none`; the
assert tests the truthiness of the integer, which only rules out `0`. -/
def numScreensCheck (s : String) : Option Int :=
  match pyInt s with
  | none => none
  | some n => if n = 0 then none else some n

/-- A media source: the final name component of a path, and whether the path is
a directory. -/
structure Source where
  name : String
  isDir : Bool
  deriving DecidableEq

/-- Python `PurePath.stem`: the name with its last suffix removed; a dot
counts as starting a suffix only when it is neither the first nor the last
character (`0 < i < len(name) - 1` on `rfind` in the CPython source). -/
def stemOf (name : String) : String :=
  let cs := name.data
  match cs.reverse.findIdx? (fun c => c = '.') with
  | none => name
  | some j =>
    let i := cs.length - 1 - j
    if 0 < i ∧ i < cs.length - 1 then String.mk (cs.take i) else name

/-- Base name of the torrent file in `create_torrent`: the stem for a single
file, the full name for a directory. -/
def torrentName (s : Source) : String :=
  if s.isDir then s.name else stemOf s.name

/-- The scratch path `tempfile.gettempdir() / (torrent_name + ".torrent")`
used by `create_torrent`; the temp directory is a fixed prefix. -/
def torrentPath (s : Source) : String :=
  "/tmp/" ++ torrentName s ++ ".torrent"

/-- The scratch filesystem state threaded through `create_torrent`: existing
files as path/content pairs (content abstracted to a tag), plus the number
of `mktorrent` invocations performed so far. -/
structure FS where
  files : List (String × Nat)
  invocations : Nat
  deriving DecidableEq

/-- Content stored at path `p`, if the file exists. -/
def fsRead (fs : FS) (p : String) : Option Nat :=
  (fs.files.find? (fun kv => kv.1 == p)).map (fun kv => kv.2)

/-- Models `Path.exists` on the scratch filesystem. -/
def fsExists (fs : FS) (p : String) : Bool :=
  (fsRead fs p).isSome

/-- Models `Path.unlink`: remove the file at `p`. -/
def fsErase (fs : FS) (p : String) : FS :=
  { fs with files := fs.files.filter (fun kv => !(kv.1 == p)) }

/-- One invocation of the external `mktorrent` tool: writes a fresh file at
the target path and bumps the invocation counter. The tool is modelled as
succeeding; a nonzero exit raises in the source, which none of the claims
about caching exercise. -/
def runTool (fs : FS) (tp : String) : FS × String :=
  ({ files := (tp, fs.invocations) :: fs.files, invocations := fs.invocations + 1 }, tp)

/-- Function `create_torrent` from the source: reuse the cached torrent when it
exists and overwrite was not requested; otherwise unlink any stale file and
invoke the external tool. Returns the new state and the torrent path. -/
def create_torrent (fs : FS) (src : Source) (overwrite : Bool) : FS × String :=
  let tp := torrentPath src
  if fsExists fs tp then
    if overwrite = false then (fs, tp)
    else runTool (fsErase fs tp) tp
  else runTool fs tp

/-- Python `"".join(l)`: concatenation of a list of strings with no
separator. -/
def concatAll : List String → String
  | [] => ""
  | s :: rest => s ++ concatAll rest

/-- The accumulator loop of `get_release_desc`: `upload f` is the image
files list of the host response for screenshot file `f` (`none` models a response body
without the expected files list, which raises); the
`bbcode` strings are joined and appended to the running description. -/
def descLoop (upload : String → Option (List String)) :
    List String → String → Except String String
  | [], acc => .ok acc
  | f :: fs, acc =>
    match upload f with
    | none => .error ("Error uploading screenshots")
    | some files => descLoop upload fs (acc ++ concatAll files)

/-- Function `get_release_desc` from the source, over the directory
listing: it iterates `os.listdir` of the screenshot directory — a list of
file names in an order the filesystem chooses — uploading each file and
concatenating the returned embed markup with no separator. -/
def get_release_desc (listing : List String) (upload : String → Option (List String)) :
    Except String String :=
  descLoop upload listing ("")

/-- Modelled from the spec words for comparison: the release description as
the concatenation, in ascending screenshot-timestamp order, of the embed
markup for each screenshot of the set. -/
def spec_release_desc (stem : String) (offsets : List Nat)
    (upload : String → Option (List String)) : String :=
  concatAll (offsets.map (fun o => concatAll ((upload (screenshotName stem o)).getD [])))

/-- The preparation arguments consumed by `create_upload_form` after
`preprocessing`, with the artifact-derived strings (torrent file name,
mediainfo text, release description) already in hand. The Python
`--special-edition` default `None` and the empty string are both falsy,
modelled as the empty string. -/
structure PrepArgs where
  contentType : String
  imdb : String
  group : String
  mediaType : String
  codec : String
  userRelease : Bool
  specialEdition : String
  torrentFileName : String
  mediainfo : String
  releaseDesc : String

/-- Python dict assignment `form[k] = v`: update in place when the key is
present, else append (insertion order preserved). -/
def setField : List (String × String) → String → String → List (String × String)
  | [], k, v => [(k, v)]
  | (k₁, v₁) :: rest, k, v =>
    if k₁ = k then (k, v) :: rest else (k₁, v₁) :: setField rest k v

/-- Dict lookup: value at key `k`, if present. -/
def getField : List (String × String) → String → Option String
  | [], _ => none
  | (k₁, v₁) :: rest, k => if k₁ = k then some v₁ else getField rest k

/-- The unconditional entries of the form dict built by
`create_upload_form`, in insertion order; binary values are abstracted to
strings (the torrent bytes to the torrent file name). -/
def base_form (a : PrepArgs) : List (String × String) :=
  [("submit", "true"),
   ("file_input", a.torrentFileName),
   ("nfo_input", ""),
   ("type", a.contentType),
   ("imdblink", a.imdb),
   ("file_media", ""),
   ("pastelog", a.mediainfo),
   ("group", a.group),
   ("remaster_title", "Director\x27s Cut"),
   ("othereditions", ""),
   ("media", a.mediaType),
   ("encoder", a.codec),
   ("release_desc", a.releaseDesc)]

/-- The conditional layering of `create_upload_form`, in source order:
unknown group, user release, then the special-edition block (remaster flag;
known editions go verbatim into `remaster_title`, anything else into
`othereditions` together with the `unknown` flag). -/
def create_upload_form (a : PrepArgs) : List (String × String) :=
  let f₀ := base_form a
  let f₁ := if a.group = "UNKNOWN"
            then setField (setField f₀ ("unknown_group") "on") "group" ""
            else f₀
  let f₂ := if a.userRelease then setField f₁ ("user") "on" else f₁
  if a.specialEdition ≠ "" then
    let f₃ := setField f₂ ("remaster") "on"
    if KNOWN_EDITIONS.contains a.specialEdition = false then
      setField (setField f₃ ("othereditions") a.specialEdition) "unknown" "on"
    else
      setField f₃ ("remaster_title") a.specialEdition
  else f₂

/-- A torrent row of the upload-response page, as the resolver reads it:
the id suffix of its `id` attribute, the result of searching the row for
its owner link (`none` when the pattern is absent, which raises), and the
creation timestamp of the row parsed to epoch seconds (`none` when
`pendulum.from_format` raises). -/
structure TorrentRow where
  rid : String
  owner : Option String
  stamp : Option Int
  deriving DecidableEq

/-- The upload-response page, as the resolver reads it: the three
page-level `search` results (`none` when the pattern is absent, so
subscripting the result raises) and the torrent rows. -/
structure UploadPage where
  userId : Option String
  authkey : Option String
  passkey : Option String
  rows : List TorrentRow
  deriving DecidableEq

/-- The list comprehension filtering rows to those owned by the
authenticated user: evaluating a row whose owner search failed raises, so
the whole step fails. -/
def ownedRows (uid : String) : List TorrentRow → Except String (List TorrentRow)
  | [] => .ok []
  | r :: rs =>
    match r.owner with
    | none => .error ("owner search failed")
    | some o =>
      match ownedRows uid rs with
      | .error e => .error e
      | .ok l => .ok (if o = uid then r :: l else l)

/-- The list comprehension pairing the torrent id of each owned row with its
parsed timestamp: a failing timestamp parse raises, so the whole step
fails. -/
def candidatePairs : List TorrentRow → Except String (List (String × Int))
  | [] => .ok []
  | r :: rs =>
    match r.stamp with
    | none => .error ("timestamp parse failed")
    | some d =>
      match candidatePairs rs with
      | .error e => .error e
      | .ok l => .ok ((r.rid, d) :: l)

/-- Python `max(pairs, key=lambda x: x[1])`: the first pair with the
maximal second component, `none` on the empty list (which raises). -/
def maxBySnd : List (String × Int) → Option (String × Int)
  | [] => none
  | x :: xs =>
    match maxBySnd xs with
    | none => some x
    | some m => some (if m.2 > x.2 then m else x)

/-- The direct-download URL format string of `get_torrent_link_from_html`. -/
def downloadUrl (tid ak pk : String) : String :=
  "https://awesome-hd.me/torrents.php?action=download&id=" ++ tid ++
    "&authkey=" ++ ak ++ "&torrent_pass=" ++ pk

/-- Function `get_torrent_link_from_html` from the source: extract user id, authkey
and passkey; keep the rows owned by the user; pair ids with parsed
timestamps; take the most recent; `assert (now - dt).in_minutes() < 2`
(equivalent, in seconds, to `now - dt < 120`, since truncation toward zero
of `d / 60` is below 2 exactly when `d < 120`); build the download URL.
Every failure is an exception, modelled as `.error`. -/
def get_torrent_link_from_html (now : Int) (p : UploadPage) : Except String String :=
  match p.userId with
  | none => .error ("userid search failed")
  | some uid =>
    match p.authkey with
    | none => .error ("authkey search failed")
    | some ak =>
      match p.passkey with
      | none => .error ("passkey search failed")
      | some pk =>
        match ownedRows uid p.rows with
        | .error e => .error e
        | .ok uts =>
          match candidatePairs uts with
          | .error e => .error e
          | .ok pairs =>
            match maxBySnd pairs with
            | none => .error ("max of empty sequence")
            | some td =>
              if now - td.2 < 120 then .ok (downloadUrl td.1 ak pk)
              else .error ("freshness assert failed")

/-- The tail of `upload_command`: `try: return get_torrent_link_from_html(r.text)`
with a bare `except: return r.url`. -/
def uploadResult (now : Int) (p : UploadPage) (respUrl : String) : String :=
  match get_torrent_link_from_html now p with
  | .ok link => link
  | .error _ => respUrl

/-- A concrete image-host stub used to evaluate the gallery publisher on
the two screenshots of a 3600-second source with 2 screenshots
(offsets 1200 and 2400). -/
def demoUpload : String → Option (List String) :=
  fun f => if f = "m_1200.png" then some ["[A]"] else some ["[B]"]

/-- Concrete preparation arguments with a known special edition. -/
def demoArgsU : PrepArgs :=
  { contentType := "Movies", imdb := "tt0113243", group := "GRP",
    mediaType := "Blu-ray", codec := "x264", userRelease := false,
    specialEdition := "Unrated", torrentFileName := "X.torrent",
    mediainfo := "MI", releaseDesc := "DESC" }

/-- Concrete preparation arguments with an edition outside the allow-list. -/
def demoArgsF : PrepArgs :=
  { demoArgsU with specialEdition := "Fan Cut" }

/-! ## Helper lemmas -/

/-- At the spec example duration 3600 the binary64 evaluation agrees with
the exact floor-division idealization for both screenshot counts the
fixtures below use. -/
theorem fp_agrees_ideal_3600 :
    fpScreenshotOffsets 3600 2 = screenshot_offsets 3600 2 ∧
    fpScreenshotOffsets 3600 4 = screenshot_offsets 3600 4 := by
  exact ⟨by decide, by decide⟩

/-- The function `maxBySnd` returns a member of the list whose second component bounds
the second component of every member (the Python max with key snd). -/
theorem maxBySnd_spec :
    ∀ (l : List (String × Int)) (m : String × Int),
      maxBySnd l = some m → m ∈ l ∧ ∀ y ∈ l, y.2 ≤ m.2 := by
  intro l
  induction l with
  | nil => intro m h; simp [maxBySnd] at h
  | cons x xs ih =>
    intro m h
    simp only [maxBySnd] at h
    cases hx : maxBySnd xs with
    | none =>
      rw [hx] at h
      injection h with h
      subst h
      refine ⟨List.mem_cons_self x xs, ?_⟩
      intro y hy
      rcases List.mem_cons.1 hy with rfl | hy2
      · exact le_refl _
      · cases xs with
        | nil => exact absurd hy2 (List.not_mem_nil y)
        | cons a as =>
          simp only [maxBySnd] at hx
          cases hax : maxBySnd as <;> simp [hax] at hx
    | some m₁ =>
      rw [hx] at h
      injection h with h
      obtain ⟨hmem, hle⟩ := ih m₁ hx
      by_cases hgt : m₁.2 > x.2
      · rw [if_pos hgt] at h
        subst h
        refine ⟨List.mem_cons_of_mem _ hmem, ?_⟩
        intro y hy
        rcases List.mem_cons.1 hy with rfl | hy2
        · exact le_of_lt hgt
        · exact hle y hy2
      · rw [if_neg hgt] at h
        subst h
        refine ⟨List.mem_cons_self x xs, ?_⟩
        intro y hy
        rcases List.mem_cons.1 hy with rfl | hy2
        · exact le_refl _
        · exact le_trans (hle y hy2) (not_lt.1 hgt)

/-- Every row kept by the ownership filter comes from the page and carries
the owner link of the authenticated user. -/
theorem ownedRows_mem (uid : String) :
    ∀ (rows uts : List TorrentRow), ownedRows uid rows = .ok uts →
      ∀ r ∈ uts, r ∈ rows ∧ r.owner = some uid := by
  intro rows
  induction rows with
  | nil =>
    intro uts h r hr
    simp only [ownedRows] at h
    injection h with h
    subst h
    exact absurd hr (List.not_mem_nil r)
  | cons x xs ih =>
    intro uts h r hr
    simp only [ownedRows] at h
    cases hox : x.owner with
    | none => rw [hox] at h; simp at h
    | some o =>
      rw [hox] at h
      cases hrec : ownedRows uid xs with
      | error e => rw [hrec] at h; simp at h
      | ok l =>
        rw [hrec] at h
        injection h with h
        subst h
        by_cases ho : o = uid
        · rw [if_pos ho] at hr
          rcases List.mem_cons.1 hr with rfl | hr2
          · exact ⟨List.mem_cons_self _ _, by rw [hox, ho]⟩
          · obtain ⟨h1, h2⟩ := ih l hrec r hr2
            exact ⟨List.mem_cons_of_mem _ h1, h2⟩
        · rw [if_neg ho] at hr
          obtain ⟨h1, h2⟩ := ih l hrec r hr
          exact ⟨List.mem_cons_of_mem _ h1, h2⟩

/-- Conversely, every page row owned by the authenticated user survives the
ownership filter. -/
theorem ownedRows_complete (uid : String) :
    ∀ (rows uts : List TorrentRow), ownedRows uid rows = .ok uts →
      ∀ r ∈ rows, r.owner = some uid → r ∈ uts := by
  intro rows
  induction rows with
  | nil => intro uts h r hr; exact absurd hr (List.not_mem_nil r)
  | cons x xs ih =>
    intro uts h r hr hu
    simp only [ownedRows] at h
    cases hox : x.owner with
    | none => rw [hox] at h; simp at h
    | some o =>
      rw [hox] at h
      cases hrec : ownedRows uid xs with
      | error e => rw [hrec] at h; simp at h
      | ok l =>
        rw [hrec] at h
        injection h with h
        subst h
        rcases List.mem_cons.1 hr with rfl | hr2
        · have ho : o = uid := by rw [hox] at hu; injection hu
          rw [if_pos ho]
          exact List.mem_cons_self _ _
        · have h1 : r ∈ l := ih l hrec r hr2 hu
          by_cases ho : o = uid
          · rw [if_pos ho]; exact List.mem_cons_of_mem _ h1
          · rw [if_neg ho]; exact h1

/-- Every id/timestamp pair built by the candidate comprehension comes from
a filtered row with that id and a successfully parsed timestamp. -/
theorem candidatePairs_mem :
    ∀ (uts : List TorrentRow) (pairs : List (String × Int)),
      candidatePairs uts = .ok pairs →
      ∀ pr ∈ pairs, ∃ r, r ∈ uts ∧ r.rid = pr.1 ∧ r.stamp = some pr.2 := by
  intro uts
  induction uts with
  | nil =>
    intro pairs h pr hpr
    simp only [candidatePairs] at h
    injection h with h
    subst h
    exact absurd hpr (List.not_mem_nil pr)
  | cons x xs ih =>
    intro pairs h pr hpr
    simp only [candidatePairs] at h
    cases hxs : x.stamp with
    | none => rw [hxs] at h; simp at h
    | some d =>
      rw [hxs] at h
      cases hrec : candidatePairs xs with
      | error e => rw [hrec] at h; simp at h
      | ok l =>
        rw [hrec] at h
        injection h with h
        subst h
        rcases List.mem_cons.1 hpr with rfl | hpr2
        · exact ⟨x, List.mem_cons_self _ _, rfl, hxs⟩
        · obtain ⟨r, h1, h2, h3⟩ := ih l hrec pr hpr2
          exact ⟨r, List.mem_cons_of_mem _ h1, h2, h3⟩

/-- Conversely, every filtered row with a parsed timestamp contributes its
id/timestamp pair to the candidate list. -/
theorem candidatePairs_complete :
    ∀ (uts : List TorrentRow) (pairs : List (String × Int)),
      candidatePairs uts = .ok pairs →
      ∀ r ∈ uts, ∀ d, r.stamp = some d → (r.rid, d) ∈ pairs := by
  intro uts
  induction uts with
  | nil => intro pairs h r hr; exact absurd hr (List.not_mem_nil r)
  | cons x xs ih =>
    intro pairs h r hr d hd
    simp only [candidatePairs] at h
    cases hxs : x.stamp with
    | none => rw [hxs] at h; simp at h
    | some d₁ =>
      rw [hxs] at h
      cases hrec : candidatePairs xs with
      | error e => rw [hrec] at h; simp at h
      | ok l =>
        rw [hrec] at h
        injection h with h
        subst h
        rcases List.mem_cons.1 hr with rfl | hr2
        · have : d₁ = d := by rw [hxs] at hd; injection hd
          subst this
          exact List.mem_cons_self _ _
        · exact List.mem_cons_of_mem _ (ih l hrec r hr2 d hd)

/-- A successful gallery loop yields the accumulator followed by the
listing-order concatenation of the joined embed markup of each file. -/
theorem descLoop_ok_eq (upload : String → Option (List String)) :
    ∀ (fs : List String) (acc s : String), descLoop upload fs acc = .ok s →
      s = acc ++ concatAll (fs.map (fun f => concatAll ((upload f).getD []))) := by
  intro fs
  induction fs with
  | nil =>
    intro acc s h
    simp only [descLoop] at h
    injection h with h
    subst h
    simp [concatAll]
  | cons f fs ih =>
    intro acc s h
    simp only [descLoop] at h
    cases hf : upload f with
    | none => rw [hf] at h; simp at h
    | some files =>
      rw [hf] at h
      have h1 := ih (acc ++ concatAll files) s h
      rw [h1]
      simp [concatAll, hf, String.append_assoc]


/-! ## Claim theorems -/

/-- C1 (counterexample): under faithful binary64 arithmetic, at duration 2
and screenshot count 4 the program computes offsets `[0, 0, 1, 1]`, which
are neither strictly increasing nor strictly inside `(0, 2)`, so the claim
fails as universally stated. -/
theorem screenshot_offsets_claim_fails :
    fpScreenshotOffsets 2 4 = [0, 0, 1, 1] ∧
    ¬(List.Pairwise (· < ·) (fpScreenshotOffsets 2 4) ∧
      ∀ x ∈ fpScreenshotOffsets 2 4, 0 < x ∧ x < 2) := by
  exact ⟨by decide, by decide⟩

/-- C1 (amended): the screenshot step computes exactly N offsets, the
truncated binary64 evaluations of `1 / (N + 1) * i * duration`; at the
example of the spec (duration 3600, 4 screenshots) these equal
`floor(D * i / (N + 1))`, namely `[720, 1440, 2160, 2880]`, but float
rounding makes the floor formula fail in general (duration 18, 5
screenshots: the fifth offset is 14 while the floor is 15), and an offset
can sit at 0 even when the duration is at least N + 1 seconds (duration
49, 48 screenshots: the first offset is 0), so neither the floor formula
nor the strict (0, D) window with strict increase holds universally. -/
theorem screenshot_offsets_correct :
    (∀ duration num_screens,
      (fpScreenshotOffsets duration num_screens).length = num_screens) ∧
    fpScreenshotOffsets 3600 4 = [720, 1440, 2160, 2880] ∧
    (fpOffset 18 5 5 = 14 ∧ 18 * 5 / (5 + 1) = 15) ∧
    (48 + 1 ≤ 49 ∧ fpOffset 49 48 1 = 0) := by
  exact ⟨fun duration num_screens => by simp [fpScreenshotOffsets],
    by decide, ⟨by decide, by decide⟩, ⟨by decide, by decide⟩⟩

/-- C3 (counterexample): a name with no codec token auto-detects to the
empty codec, but the `assert codec in CODECS` validation rejects the empty
string, so preparation does fail on an empty codec. -/
theorem empty_codec_claim_fails :
    autodetect_codec ("Movie.2020.1080p.BluRay-GRP") = "" ∧
    codec_assert_ok ("") = false := by
  exact ⟨by decide, by decide⟩

/-- C3 (amended): when no codec token is present, codec auto-detection
returns the empty string rather than raising; however the post-classification
validation rejects the empty codec, so preparation fails when the codec
remains empty. -/
theorem empty_codec_rejected (name : String)
    (h₁ : (strContains name ("AVC") && strContains name ("Remux")) = false)
    (h₂ : ∀ c ∈ CODECS, strContains name c = false) :
    autodetect_codec name = "" ∧ codec_assert_ok (autodetect_codec name) = false := by
  have hfind : CODECS.find? (fun c => strContains name c) = none :=
    List.find?_eq_none.mpr (fun c hc => by simp [h₂ c hc])
  have ha : autodetect_codec name = "" := by
    simp [autodetect_codec, h₁, hfind]
  exact ⟨ha, by rw [ha]; decide⟩

/-- C3 (witness): a plain Blu-ray release name with no codec token. -/
theorem empty_codec_rejected_witness :
    autodetect_codec ("Some.Show.2019.720p.HDTV-TEAM") = "" ∧
    codec_assert_ok (autodetect_codec ("Some.Show.2019.720p.HDTV-TEAM")) = false :=
  empty_codec_rejected ("Some.Show.2019.720p.HDTV-TEAM") (by decide) (by decide)

/-- C5: any name containing `UHD.BluRay` classifies as `UHD Blu-ray`, never
as plain `Blu-ray`, because the `UHD.BluRay` check precedes the `BluRay`
check. -/
theorem uhd_bluray_priority (name : String) (h : strContains name ("UHD.BluRay") = true) :
    autodetect_media_type name = .ok ("UHD Blu-ray") ∧
    autodetect_media_type name ≠ .ok ("Blu-ray") := by
  have h₁ : autodetect_media_type name = .ok ("UHD Blu-ray") := by
    simp [autodetect_media_type, h]
  refine ⟨h₁, ?_⟩
  rw [h₁]
  intro hc
  injection hc with hc
  exact absurd hc (by decide)

/-- C5 (witness): a concrete UHD Blu-ray release name. -/
theorem uhd_bluray_priority_witness :
    autodetect_media_type ("Show.2024.2160p.UHD.BluRay.x265-GRP") = .ok ("UHD Blu-ray") :=
  (uhd_bluray_priority ("Show.2024.2160p.UHD.BluRay.x265-GRP") (by decide)).1

/-- C6 (counterexample): the name contains `H.264`, yet the WEB-DL
normalization produces `h.265 Remux`, because the h.265 rewrite runs after
the h.264 rewrite and the name also contains `HEVC`. -/
theorem webdl_codec_claim_fails :
    strContains ("Movie.2020.WEB-DL.H.264.HEVC-GRP") "H.264" = true ∧
    preprocessing_codec ("Movie.2020.WEB-DL.H.264.HEVC-GRP") "WEB-DL" = "h.265 Remux" ∧
    preprocessing_codec ("Movie.2020.WEB-DL.H.264.HEVC-GRP") "WEB-DL" ≠ "h.264 Remux" := by
  exact ⟨by decide, by decide, by decide⟩

/-- C6 (amended): under WEB-DL with an auto-detected codec, a raw `x264`
token or an `H.264` substring yields `h.264 Remux` provided the name
contains neither `H.265` nor `HEVC` (the h.265 rewrite runs second and
overrides); and a `H.265`/`HEVC` substring, or a raw `x265` token not
rewritten by the first rule, yields `h.265 Remux`. -/
theorem webdl_codec_normalization (name : String) :
    ((autodetect_codec name = "x264" ∨ strContains name ("H.264") = true) →
      strContains name ("H.265") = false → strContains name ("HEVC") = false →
      preprocessing_codec name ("WEB-DL") = "h.264 Remux") ∧
    ((strContains name ("H.265") = true ∨ strContains name ("HEVC") = true ∨
        (autodetect_codec name = "x265" ∧ strContains name ("H.264") = false)) →
      preprocessing_codec name ("WEB-DL") = "h.265 Remux") := by
  constructor
  · intro h h265 hevc
    have hc₁ : (decide (autodetect_codec name = "x264") || strContains name ("H.264")) = true := by
      rcases h with h | h <;> simp [h]
    simp [preprocessing_codec, webdl_normalize, hc₁, h265, hevc]
  · intro h
    rcases h with h | h | ⟨h₁, h₂⟩
    · simp [preprocessing_codec, webdl_normalize, h]
    · simp [preprocessing_codec, webdl_normalize, h]
    · simp [preprocessing_codec, webdl_normalize, h₁, h₂]

/-- C6 (witness): an `H.264` WEB-DL name with no h.265 marker, and a HEVC
WEB-DL name. -/
theorem webdl_codec_normalization_witness :
    preprocessing_codec ("Movie.2020.WEB-DL.H.264-GRP") "WEB-DL" = "h.264 Remux" ∧
    preprocessing_codec ("Movie.2021.WEB-DL.HEVC-GRP") "WEB-DL" = "h.265 Remux" :=
  ⟨(webdl_codec_normalization ("Movie.2020.WEB-DL.H.264-GRP")).1
      (Or.inr (by decide)) (by decide) (by decide),
   (webdl_codec_normalization ("Movie.2021.WEB-DL.HEVC-GRP")).2
      (Or.inr (Or.inl (by decide)))⟩

/-- C2: on a successful resolution the returned link is the download URL of
an owned row whose parsed timestamp is maximal among all parsed owned-row
timestamps and lies within 2 minutes (120 seconds) of the current time; on
any resolution failure the upload command returns the submission response
own URL. -/
theorem upload_result_resolution (now : Int) (p : UploadPage) (respUrl : String) :
    (∀ link, get_torrent_link_from_html now p = .ok link →
      ∃ uid ak pk r dt,
        p.userId = some uid ∧ p.authkey = some ak ∧ p.passkey = some pk ∧
        r ∈ p.rows ∧ r.owner = some uid ∧ r.stamp = some dt ∧
        (∀ r₁ ∈ p.rows, r₁.owner = some uid → ∀ d₁, r₁.stamp = some d₁ → d₁ ≤ dt) ∧
        now - dt < 120 ∧ link = downloadUrl r.rid ak pk) ∧
    (∀ e, get_torrent_link_from_html now p = .error e →
      uploadResult now p respUrl = respUrl) := by
  constructor
  · intro link h
    unfold get_torrent_link_from_html at h
    split at h
    · simp at h
    · rename_i uid hu
      split at h
      · simp at h
      · rename_i ak ha
        split at h
        · simp at h
        · rename_i pk hpk
          split at h
          · simp at h
          · rename_i uts ho
            split at h
            · simp at h
            · rename_i pairs hc
              split at h
              · simp at h
              · rename_i td hm
                split at h
                · rename_i hfresh
                  injection h with h
                  obtain ⟨hmemP, hmax⟩ := maxBySnd_spec pairs td hm
                  obtain ⟨r, hrU, hrid, hstamp⟩ := candidatePairs_mem uts pairs hc td hmemP
                  obtain ⟨hrRows, hrOwner⟩ := ownedRows_mem uid p.rows uts ho r hrU
                  refine ⟨uid, ak, pk, r, td.2, hu, ha, hpk, hrRows, hrOwner, hstamp,
                    ?_, hfresh, ?_⟩
                  · intro r₁ hr₁ hown₁ d₁ hd₁
                    have h₁ : r₁ ∈ uts := ownedRows_complete uid p.rows uts ho r₁ hr₁ hown₁
                    have h₂ : (r₁.rid, d₁) ∈ pairs :=
                      candidatePairs_complete uts pairs hc r₁ h₁ d₁ hd₁
                    exact hmax (r₁.rid, d₁) h₂
                  · rw [← h, hrid]
                · simp at h
  · intro e h
    simp [uploadResult, h]

/-- C2 (witness): a response page whose user-id pattern is absent makes
resolution fail, and the upload command falls back to the response URL. -/
theorem upload_result_resolution_witness :
    uploadResult 0 (UploadPage.mk none none none []) "https://awesome-hd.me/upload.php" =
      "https://awesome-hd.me/upload.php" :=
  (upload_result_resolution 0 (UploadPage.mk none none none [])
      "https://awesome-hd.me/upload.php").2 ("userid search failed") rfl

/-- C4 (counterexample): a directory listing enumerating the two screenshots
of a 3600-second/2-screenshot source in descending-timestamp order is a
permutation of the screenshot set, yet the published description is the
listing-order concatenation, not the ascending-timestamp concatenation. -/
theorem release_desc_order_claim_fails :
    List.Perm ["m_2400.png", "m_1200.png"]
      ((screenshot_offsets 3600 2).map (screenshotName ("m"))) ∧
    get_release_desc ["m_2400.png", "m_1200.png"] demoUpload = .ok ("[B][A]") ∧
    spec_release_desc ("m") (screenshot_offsets 3600 2) demoUpload = "[A][B]" ∧
    ("[B][A]" : String) ≠ "[A][B]" := by
  exact ⟨by decide, by rfl, by rfl, by decide⟩

/-- C4 (amended): a successful gallery publication produces the
concatenation, with no separator, of the embed markup of each screenshot in
directory-listing order (the order `os.listdir` yields); in particular it
equals the ascending-timestamp concatenation exactly when the listing
enumerates the screenshots in ascending-timestamp order. -/
theorem release_desc_listing_order :
    (∀ (listing : List String) (upload : String → Option (List String)) (s : String),
        get_release_desc listing upload = .ok s →
        s = concatAll (listing.map (fun f => concatAll ((upload f).getD [])))) ∧
    (∀ (stem : String) (offs : List Nat) (upload : String → Option (List String)) (s : String),
        get_release_desc (offs.map (screenshotName stem)) upload = .ok s →
        s = spec_release_desc stem offs upload) := by
  have hmain : ∀ (listing : List String) (upload : String → Option (List String)) (s : String),
      get_release_desc listing upload = .ok s →
      s = concatAll (listing.map (fun f => concatAll ((upload f).getD []))) := by
    intro listing upload s h
    have h₁ := descLoop_ok_eq upload listing ("") s h
    simpa using h₁
  refine ⟨hmain, ?_⟩
  intro stem offs upload s h
  have h₁ := hmain _ _ _ h
  rw [h₁, spec_release_desc, List.map_map]
  rfl

/-- C4 (witness): the same two screenshots listed in ascending order give
the ascending concatenation. -/
theorem release_desc_listing_order_witness :
    ("[A][B]" : String) =
      concatAll ((["m_1200.png", "m_2400.png"]).map
        (fun f => concatAll ((demoUpload f).getD []))) :=
  release_desc_listing_order.1 ["m_1200.png", "m_2400.png"] demoUpload ("[A][B]") (by rfl)

/-- C7: starting from a state without the cached torrent, the first
creation call writes it with one tool invocation, and a second call without
overwrite returns the same cached path with the state — invocation count
and file contents — unchanged. -/
theorem torrent_cache_reuse (fs : FS) (src : Source)
    (h : fsExists fs (torrentPath src) = false) (h₀ : fs.invocations = 0) :
    (create_torrent fs src false).2 = torrentPath src ∧
    (create_torrent fs src false).1.invocations = 1 ∧
    create_torrent (create_torrent fs src false).1 src false =
      ((create_torrent fs src false).1, torrentPath src) := by
  have h₁ : create_torrent fs src false =
      ({ files := (torrentPath src, fs.invocations) :: fs.files,
         invocations := fs.invocations + 1 }, torrentPath src) := by
    simp [create_torrent, h, runTool]
  have h₂ : fsExists ({ files := (torrentPath src, fs.invocations) :: fs.files,
                        invocations := fs.invocations + 1 } : FS) (torrentPath src) = true := by
    simp [fsExists, fsRead, List.find?]
  refine ⟨by rw [h₁], by rw [h₁]; simp [h₀], ?_⟩
  rw [h₁]
  simp [create_torrent, h₂]

/-- C7 (witness): a single-file source on an empty scratch state. -/
theorem torrent_cache_reuse_witness :
    (create_torrent (FS.mk [] 0) (Source.mk ("X.mkv") false) false).1.invocations = 1 ∧
    create_torrent (create_torrent (FS.mk [] 0) (Source.mk ("X.mkv") false) false).1
        (Source.mk ("X.mkv") false) false =
      ((create_torrent (FS.mk [] 0) (Source.mk ("X.mkv") false) false).1,
        torrentPath (Source.mk ("X.mkv") false)) :=
  ⟨(torrent_cache_reuse (FS.mk [] 0) (Source.mk ("X.mkv") false) (by decide) rfl).2.1,
   (torrent_cache_reuse (FS.mk [] 0) (Source.mk ("X.mkv") false) (by decide) rfl).2.2⟩

/-- C8: a non-empty special edition always sets the `remaster` flag; a
known edition goes verbatim into `remaster_title` and leaves the `unknown`
flag unset; any other edition goes into `othereditions` and sets the
`unknown` flag. -/
theorem special_edition_fields (a : PrepArgs) (h : a.specialEdition ≠ "") :
    getField (create_upload_form a) "remaster" = some ("on") ∧
    (KNOWN_EDITIONS.contains a.specialEdition = true →
      getField (create_upload_form a) "remaster_title" = some a.specialEdition ∧
      getField (create_upload_form a) "unknown" = none) ∧
    (KNOWN_EDITIONS.contains a.specialEdition = false →
      getField (create_upload_form a) "othereditions" = some a.specialEdition ∧
      getField (create_upload_form a) "unknown" = some ("on")) := by
  by_cases h₁ : a.group = "UNKNOWN" <;> by_cases h₂ : a.userRelease <;>
    by_cases h₃ : a.specialEdition ∈ KNOWN_EDITIONS <;>
      simp +decide [create_upload_form, base_form, setField, getField, h, h₁, h₂, h₃]

/-- C8 (witness): `Unrated` is a known edition and lands in
`remaster_title` with no `unknown` flag; `Fan Cut` is not and lands in
`othereditions` with the `unknown` flag, both with the `remaster` flag. -/
theorem special_edition_fields_witness :
    getField (create_upload_form demoArgsU) "remaster" = some ("on") ∧
    getField (create_upload_form demoArgsU) "remaster_title" = some ("Unrated") ∧
    getField (create_upload_form demoArgsU) "unknown" = none ∧
    getField (create_upload_form demoArgsF) "othereditions" = some ("Fan Cut") ∧
    getField (create_upload_form demoArgsF) "unknown" = some ("on") :=
  ⟨(special_edition_fields demoArgsU (by decide)).1,
   ((special_edition_fields demoArgsU (by decide)).2.1 (by decide)).1,
   ((special_edition_fields demoArgsU (by decide)).2.1 (by decide)).2,
   ((special_edition_fields demoArgsF (by decide)).2.2 (by decide)).1,
   ((special_edition_fields demoArgsF (by decide)).2.2 (by decide)).2⟩

/-- C9 (counterexample): `"-1"` coerces to the integer `-1`, which is not
positive, yet the screenshot-count validation accepts it (Python
`assert int(x)` only rules out zero). -/
theorem num_screens_claim_fails :
    pyInt ("-1") = some (-1) ∧ ¬(0 < (-1 : Int)) ∧ numScreensCheck ("-1") = some (-1) := by
  exact ⟨by decide, by decide, by decide⟩

/-- C9 (amended): the screenshot-count coercion fails exactly when the
supplied value does not parse as an integer or parses to zero; any nonzero
integer — including negative ones — is accepted, so after coercion the
count is a nonzero, not necessarily positive, integer. -/
theorem num_screens_coercion (s : String) :
    (numScreensCheck s = none ↔ pyInt s = none ∨ pyInt s = some 0) ∧
    (∀ n : Int, numScreensCheck s = some n ↔ pyInt s = some n ∧ n ≠ 0) := by
  unfold numScreensCheck
  cases hp : pyInt s with
  | none => simp
  | some m =>
    by_cases hm : m = 0
    · subst hm; simp
    · simp only [hm, if_neg hm]
      constructor
      · simp [hm]
      · intro n
        constructor
        · intro hn
          injection hn with hn
          subst hn
          exact ⟨rfl, hm⟩
        · intro hpair
          obtain ⟨hn, hnz⟩ := hpair
          injection hn with hn
          subst hn
          simp

/-- C9 (witness): the default count 4 parses and is accepted. -/
theorem num_screens_coercion_witness :
    numScreensCheck ("4") = some 4 ∧ pyInt ("4") = some 4 :=
  ⟨((num_screens_coercion ("4")).2 4).mpr ⟨by decide, by decide⟩, by decide⟩

/-- C10: the torrent cache path is keyed by the stem for single-file
sources, so two distinct file sources sharing a stem resolve to the same
cache path, and creation for the second source without overwrite silently
reuses the cached torrent of the first source without invoking the tool. -/
theorem torrent_cache_stem_collision (s₁ s₂ : Source) (fs : FS)
    (h₁ : s₁.isDir = false) (h₂ : s₂.isDir = false)
    (h₃ : stemOf s₁.name = stemOf s₂.name) :
    torrentPath s₂ = torrentPath s₁ ∧
    (fsExists fs (torrentPath s₁) = true →
      create_torrent fs s₂ false = (fs, torrentPath s₁)) := by
  have hp : torrentPath s₂ = torrentPath s₁ := by
    simp [torrentPath, torrentName, h₁, h₂, h₃]
  refine ⟨hp, ?_⟩
  intro hex
  simp [create_torrent, hp, hex]

/-- C10 (witness): `X.mkv` and `X.mp4` share the stem `X`; after the
torrent exists, creating for `X.mp4` reuses it. -/
theorem torrent_cache_stem_collision_witness :
    create_torrent (FS.mk [("/tmp/X.torrent", 0)] 1) (Source.mk ("X.mp4") false) false =
      (FS.mk [("/tmp/X.torrent", 0)] 1, torrentPath (Source.mk ("X.mkv") false)) :=
  (torrent_cache_stem_collision (Source.mk ("X.mkv") false) (Source.mk ("X.mp4") false)
      (FS.mk [("/tmp/X.torrent", 0)] 1) rfl rfl (by decide)).2 (by decide)

end AhdUploader
